import Mathlib

/-!
Shallow embedding of the rutaVerde garbage-collection simulation
(`src/agents2.py` and the snapshot classifier of `src/api_server.py`).

Python integers are modelled as `ℤ`; the floating-point learning
parameters (`epsilon`, `alpha`, `gamma`, `population_density`) as `ℚ`.
The float threshold comparisons of the source (`current_fill >= 0.9 *
capacity`, `current_fill >= 0.7 * capacity`, `load >= 0.8 * capacity`,
`population_density >= 0.3`) compare an integer with a product
`float_constant * integer`; for every integer capacity the rounded
double product lies on the same side of every integer as the exact
rational product (the rounding error of the product is below half an
ulp of the nearest integer boundary), so they are embedded as the
exact rational comparisons `10*fill ≥ 9*cap`, `10*fill ≥ 7*cap`,
`5*load ≥ 4*cap`, `density ≥ 3/10`.

Randomness (`random.uniform`, `random.randint`, `random.choice`) is
modelled by oracle arguments: each draw is an explicit input, and the
environment step is a relation existentially quantified over draws
constrained to the ranges the source draws from.
-/

namespace RutaVerde

/-- The six actions of `TrashTruckAgent.possible_actions`. -/
inductive Action where
  | up
  | down
  | left
  | right
  | collect
  | change_route
deriving DecidableEq

/-- One waste container (`TrashContainerAgent`): position on the grid,
`capacity` (= `p.container_limit`), and `current_fill`. -/
structure Container where
  position : ℤ × ℤ
  capacity : ℤ
  current_fill : ℤ
deriving DecidableEq

/-- Embedding of `TrashContainerAgent.collect_trash`: removes
`min(current_fill, amount)` and returns the pair
(amount collected, container after removal). -/
def Container.collect_trash (c : Container) (amount : ℤ) : ℤ × Container :=
  let collected := min c.current_fill amount
  (collected, { c with current_fill := c.current_fill - collected })

/-- Embedding of `TrashContainerAgent.is_critical`:
`current_fill >= 0.9 * capacity`. -/
def Container.is_critical (c : Container) : Bool :=
  decide (9 * c.capacity ≤ 10 * c.current_fill)

/-- Embedding of `TrashContainerAgent.is_overflowing`:
`current_fill >= capacity`. -/
def Container.is_overflowing (c : Container) : Bool :=
  decide (c.capacity ≤ c.current_fill)

/-- Embedding of `TrashContainerAgent.step`. The draw of
`random.uniform(0,1)` is the oracle `u`; the draw of
`random.randint(...)` (whose range depends on `population_density`)
is the oracle `g`, range-constrained in `GenOk` below. -/
def Container.step (density u : ℚ) (g : ℤ) (c : Container) : Container :=
  if u < density then
    { c with current_fill := min (c.current_fill + g) (c.capacity * 2) }
  else c

/-- Range constraint of the `random.randint` draw in
`TrashContainerAgent.step`: `[2,5]` when `population_density >= 0.3`,
else `[1,3]`. -/
def GenOk (density : ℚ) (g : ℤ) : Prop :=
  if 3 / 10 ≤ density then 2 ≤ g ∧ g ≤ 5 else 1 ≤ g ∧ g ≤ 3

/-- Embedding of `GarbageEnvironment.get_container_at_position`:
first container of the list whose position matches, if any. -/
def getContainerAt : List Container → ℤ × ℤ → Option Container
  | [], _ => none
  | c :: cs, p => if c.position = p then some c else getContainerAt cs p

/-- Embedding of `GarbageEnvironment.get_critical_containers`. -/
def criticalPositions (cs : List Container) : List (ℤ × ℤ) :=
  (cs.filter (fun c => c.is_critical)).map (fun c => c.position)

/-- Embedding of `GarbageEnvironment.get_overflowing_containers`. -/
def overflowingPositions (cs : List Container) : List (ℤ × ℤ) :=
  (cs.filter (fun c => c.is_overflowing)).map (fun c => c.position)

/-- Manhattan distance `abs(x - px) + abs(y - py)`. -/
def manhattan (p q : ℤ × ℤ) : ℤ :=
  |p.1 - q.1| + |p.2 - q.2|

/-- Minimum Manhattan distance from `p` to a (nonempty) list of
positions, as computed by Python `min(... for pos in list)`. -/
def minDistTo (p : ℤ × ℤ) : List (ℤ × ℤ) → ℤ
  | [] => 0
  | q :: qs => qs.foldl (fun m r => min m (manhattan p r)) (manhattan p q)

/-- Position of the list minimising the Manhattan distance to `p`;
Python `min(list, key=...)` keeps the first minimiser, so only a
strictly smaller distance replaces the current best. -/
def closestTo (p : ℤ × ℤ) : List (ℤ × ℤ) → ℤ × ℤ
  | [] => (0, 0)
  | q :: qs => qs.foldl (fun best r => if manhattan p r < manhattan p best then r else best) q

/-- A Q-learning state: `(position, load)`, as in
`TrashTruckAgent.state`. -/
abbrev TState := (ℤ × ℤ) × ℤ

/-- Per-state action-value row of the Q-table. -/
abbrev AVals := Action → ℚ

/-- The Q-table: Python dict from state to dict from action to value.
Inner dicts always hold all six actions (they are created by the lazy
initialisation of `update_q`), so a total function on `Action` is
faithful. -/
abbrev QTable := TState → Option AVals

/-- One truck (`TrashTruckAgent`). -/
structure Truck where
  capacity : ℤ
  load : ℤ
  position : ℤ × ℤ
  q_table : QTable
  epsilon : ℚ
  alpha : ℚ
  gamma : ℚ
  truck_id : ℤ

/-- Embedding of `TrashTruckAgent.state`. -/
def Truck.state (t : Truck) : TState :=
  (t.position, t.load)

/-- Embedding of `TrashTruckAgent.possible_actions`, in source order
(which is also the iteration order of every inner Q-table dict). -/
def possible_actions : List Action :=
  [.up, .down, .left, .right, .collect, .change_route]

/-- Python `max(d, key=d.get)` over an inner Q-table dict: first
action (in insertion order) with the maximal value; a later action
replaces the current best only when strictly greater. -/
def argmaxAction (av : AVals) : Action :=
  possible_actions.foldl (fun best a => if av best < av a then a else best) .up

/-- Python `max(d.values())` over an inner Q-table dict. -/
def maxAVal (av : AVals) : ℚ :=
  possible_actions.foldl (fun m a => max m (av a)) (av .up)

/-- The four dump corners of `TrashTruckAgent.move_to_dump`. -/
def dump_points : List (ℤ × ℤ) :=
  [(0, 0), (7, 0), (0, 7), (7, 7)]

/-- Embedding of `TrashTruckAgent.move_to_dump`: head one grid step
toward the closest dump corner; when already there, zero the load
(side effect on the truck) and return the dummy action `collect`. -/
def Truck.move_to_dump (t : Truck) : Action × Truck :=
  let cd := closestTo t.position dump_points
  if t.position.1 < cd.1 then (.right, t)
  else if cd.1 < t.position.1 then (.left, t)
  else if t.position.2 < cd.2 then (.up, t)
  else if cd.2 < t.position.2 then (.down, t)
  else (.collect, { t with load := 0 })

/-- Embedding of `TrashTruckAgent.move_to_critical`. -/
def Truck.move_to_critical (t : Truck) (crit : List (ℤ × ℤ)) : Action :=
  let cc := closestTo t.position crit
  if t.position.1 < cc.1 then .right
  else if cc.1 < t.position.1 then .left
  else if t.position.2 < cc.2 then .up
  else if cc.2 < t.position.2 then .down
  else .collect

/-- Embedding of `TrashTruckAgent.choose_action`. The oracle `u` is
the `random.uniform(0,1)` draw of the exploration test; `rc1` is the
`random.choice` draw of the exploration branch; `rc2` the
`random.choice` draw used as `default` when the state is unseen.
Returns the action together with the (possibly mutated, by
`move_to_dump`) truck. -/
def Truck.choose_action (t : Truck) (cs : List Container) (u : ℚ) (rc1 rc2 : Action) :
    Action × Truck :=
  let pri1 : Bool :=
    match getContainerAt cs t.position with
    | some c => decide (0 < c.current_fill) && decide (t.load < t.capacity)
    | none => false
  if pri1 then (.collect, t)
  else if 4 * t.capacity ≤ 5 * t.load then t.move_to_dump
  else
    let crit := criticalPositions cs
    if ¬ crit.isEmpty then (t.move_to_critical crit, t)
    else if u < t.epsilon then (rc1, t)
    else
      match t.q_table t.state with
      | some av => (argmaxAction av, t)
      | none => (rc2, t)

/-- Boundary-clamped movement of `TrashTruckAgent.execute`
(lines 174-181): the value of `next_pos` after the four movement
branches. -/
def movementNext (a : Action) (p : ℤ × ℤ) : ℤ × ℤ :=
  if a = .up ∧ p.2 < 7 then (p.1, p.2 + 1)
  else if a = .down ∧ 0 < p.2 then (p.1, p.2 - 1)
  else if a = .left ∧ 0 < p.1 then (p.1 - 1, p.2)
  else if a = .right ∧ p.1 < 7 then (p.1 + 1, p.2)
  else p

/-- Distance-shaping reward of `TrashTruckAgent.execute`
(lines 183-189): +2 when some critical container exists and the
minimum distance from `np` is strictly below the one from `p`. -/
def shapingReward (crit : List (ℤ × ℤ)) (p np : ℤ × ℤ) : ℤ :=
  if ¬ crit.isEmpty ∧ minDistTo np crit < minDistTo p crit then 2 else 0

/-- Replace the first container of the list at position `p` by its
image under `f` (the aliased mutation of the object returned by
`get_container_at_position`). -/
def updateFirstAt (cs : List Container) (p : ℤ × ℤ) (f : Container → Container) :
    List Container :=
  match cs with
  | [] => []
  | c :: rest => if c.position = p then f c :: rest else c :: updateFirstAt rest p f

/-- The `collect` branch of `TrashTruckAgent.execute`
(lines 191-205): returns (reward delta, new load, containers after
the mutation). The critical-bonus test runs on the container object
after `collect_trash` has removed the collected amount. -/
def collectStep (cs : List Container) (t : Truck) : ℤ × ℤ × List Container :=
  match getContainerAt cs t.position with
  | some c =>
    if t.load < t.capacity then
      if 0 < c.current_fill then
        let truck_space := t.capacity - t.load
        let amount_to_collect := min c.current_fill (min truck_space 10)
        let collected := (c.collect_trash amount_to_collect).1
        let bonus : ℤ :=
          if (c.collect_trash amount_to_collect).2.is_critical then 100 * collected else 0
        (30 * collected + bonus, t.load + collected,
          updateFirstAt cs t.position (fun c0 => (c0.collect_trash amount_to_collect).2))
      else (-2, t.load, cs)
    else (-2, t.load, cs)
  | none => (-2, t.load, cs)

/-- The `change_route` branch of `TrashTruckAgent.execute`
(lines 207-226): returns the new `next_pos` (starting from the value
`np` the movement block left, which is `p` itself for this action)
and the reward delta. -/
def rerouteStep (crit : List (ℤ × ℤ)) (p np : ℤ × ℤ) : (ℤ × ℤ) × ℤ :=
  if ¬ crit.isEmpty then
    let cc := closestTo p crit
    let np2 :=
      if p.1 < cc.1 ∧ p.1 < 7 then (p.1 + 1, p.2)
      else if cc.1 < p.1 ∧ 0 < p.1 then (p.1 - 1, p.2)
      else if p.2 < cc.2 ∧ p.2 < 7 then (p.1, p.2 + 1)
      else if cc.2 < p.2 ∧ 0 < p.2 then (p.1, p.2 - 1)
      else np
    (np2, 10)
  else (np, -2)

/-- Embedding of `TrashTruckAgent.execute`: returns
(reward, truck after the action, containers after the action). -/
def Truck.execute (t : Truck) (cs : List Container) (action : Action) :
    ℤ × Truck × List Container :=
  let next_pos := movementNext action t.position
  let crit := criticalPositions cs
  let shape := shapingReward crit t.position next_pos
  let cpart :=
    if action = .collect then collectStep cs t else (0, t.load, cs)
  let rpart :=
    if action = .change_route then rerouteStep crit t.position next_pos
    else (next_pos, 0)
  let load2 := cpart.2.1
  let cs2 := cpart.2.2
  let fullPenalty : ℤ := if t.capacity ≤ load2 then -20 else 0
  let overflowPenalty : ℤ := -(30 * (overflowingPositions cs2).length)
  let reward := shape + cpart.1 + rpart.2 + fullPenalty + overflowPenalty
  (reward, { t with load := load2, position := rpart.1 }, cs2)

/-- Action-value row stored for a state, with the all-zero row where
the source would have just created one (lazy initialisation). -/
def avAt (q : QTable) (s : TState) : AVals :=
  match q s with
  | some av => av
  | none => fun _ => 0

/-- Lazy initialisation of `TrashTruckAgent.update_q`: an unseen
state gets the row mapping all six actions to 0. -/
def initStateQ (q : QTable) (s : TState) : QTable :=
  match q s with
  | some _ => q
  | none => Function.update q s (some fun _ => 0)

/-- Embedding of `TrashTruckAgent.update_q`. -/
def Truck.update_q (t : Truck) (s : TState) (a : Action) (reward : ℤ) (s' : TState) :
    Truck :=
  let q2 := initStateQ (initStateQ t.q_table s) s'
  let old_value := avAt q2 s a
  let next_max := maxAVal (avAt q2 s')
  let new_value := old_value + t.alpha * ((reward : ℚ) + t.gamma * next_max - old_value)
  { t with q_table := Function.update q2 s (some (Function.update (avAt q2 s) a new_value)) }

/-- Embedding of `TrashTruckAgent.step`: observe the state, choose,
execute, update. Returns (truck after the step, containers after the
step, the reward of the step). -/
def Truck.step (t : Truck) (cs : List Container) (u : ℚ) (rc1 rc2 : Action) :
    Truck × List Container × ℤ :=
  let s := t.state
  let at1 := t.choose_action cs u rc1 rc2
  let rtc := at1.2.execute cs at1.1
  (rtc.2.1.update_q s at1.1 rtc.1 rtc.2.1.state, rtc.2.2, rtc.1)

/-- State of `GarbageEnvironment`: its containers and trucks, in
list order. -/
structure EnvState where
  containers : List Container
  trucks : List Truck

/-- Oracle draws consumed by one truck in one step. -/
abbrev TruckOracle := ℚ × Action × Action

/-- Run the trucks in list order, threading the container list
(`self.trucks.step()` in `GarbageEnvironment.step`): a later truck
observes the fills already decremented by an earlier one. -/
def stepTrucks : List Container → List (Truck × TruckOracle) → List Truck × List Container
  | cs, [] => ([], cs)
  | cs, (t, o) :: rest =>
    let r := t.step cs o.1 o.2.1 o.2.2
    let tail := stepTrucks r.2.1 rest
    (r.1 :: tail.1, tail.2)

/-- Embedding of `GarbageEnvironment.step` as a function of the
oracle draws: all containers generate first, then all trucks act in
order. -/
def envStepFun (density : ℚ) (co : List (ℚ × ℤ)) (tos : List TruckOracle) (s : EnvState) :
    EnvState :=
  let cs1 := (s.containers.zip co).map (fun p => Container.step density p.2.1 p.2.2 p.1)
  let r := stepTrucks cs1 (s.trucks.zip tos)
  ⟨r.2, r.1⟩

/-- One full step of the environment, as a relation: there exist
oracle draws, with the generation draws in the ranges
`TrashContainerAgent.step` samples from, producing the next state. -/
def EnvStep (density : ℚ) (s s' : EnvState) : Prop :=
  ∃ co tos, co.length = s.containers.length ∧ tos.length = s.trucks.length ∧
    (∀ p ∈ co, GenOk density p.2) ∧ s' = envStepFun density co tos s

/-- States reachable from `s0` by repeated full steps. -/
def Reachable (density : ℚ) (s0 s : EnvState) : Prop :=
  Relation.ReflTransGen (EnvStep density) s0 s

/-- The fixed container positions of `GarbageEnvironment.setup`. -/
def container_positions : List (ℤ × ℤ) :=
  [(1, 1), (6, 1), (2, 5), (5, 6), (3, 3)]

/-- The fixed truck start positions of `GarbageEnvironment.setup`. -/
def start_positions : List (ℤ × ℤ) :=
  [(0, 0), (7, 0), (0, 7)]

/-- States `GarbageEnvironment.setup` can produce with truck capacity
`cap` and container capacity `climit`: five containers at the fixed
positions with initial fill drawn by `random.randint(5, 20)`, three
trucks at the fixed corners with zero load.  The learning fields of
the trucks are unconstrained (they come from the parameters and from
`load_q_table`). -/
def SetupOk (cap climit : ℤ) (s : EnvState) : Prop :=
  s.containers.map Container.position = container_positions ∧
  (∀ c ∈ s.containers, c.capacity = climit ∧ 5 ≤ c.current_fill ∧ c.current_fill ≤ 20) ∧
  s.trucks.map Truck.position = start_positions ∧
  (∀ t ∈ s.trucks, t.capacity = cap ∧ t.load = 0)

/-- Record persisted by `TrashTruckAgent.save_q_table` (the pickle
payload, modelled as a faithful store). -/
structure SavedData where
  q_table : QTable
  epsilon : ℚ
  training_runs : ℤ

/-- Embedding of `TrashTruckAgent.save_q_table` for one truck
identity: write the truck's table and exploration rate, bumping the
run counter of an existing record. -/
def save_q_table (store : Option SavedData) (t : Truck) : Option SavedData :=
  let training_runs : ℤ :=
    match store with
    | some old => old.training_runs + 1
    | none => 1
  some ⟨t.q_table, t.epsilon, training_runs⟩

/-- Embedding of `TrashTruckAgent.load_q_table` for one truck
identity: with no record the truck is unchanged; otherwise the table
is taken verbatim and the exploration rate becomes
`max(0.2, saved_epsilon * 0.98)`. -/
def load_q_table (store : Option SavedData) (t : Truck) : Truck :=
  match store with
  | none => t
  | some d =>
    { t with q_table := d.q_table, epsilon := max (2 / 10) (d.epsilon * (98 / 100)) }

/-- Embedding of `get_container_status` from `src/api_server.py`. -/
def get_container_status (c : Container) : String :=
  if c.is_overflowing then "overflowing"
  else if c.is_critical then "critical"
  else if 7 * c.capacity ≤ 10 * c.current_fill then "medium"
  else "normal"

/-- The container part of the spec invariant:
`0 ≤ current_fill ≤ 2 × capacity`. -/
def ContainerInv (c : Container) : Prop :=
  0 ≤ c.current_fill ∧ c.current_fill ≤ 2 * c.capacity

/-- The vehicle part of the spec invariant: `0 ≤ load ≤ capacity`. -/
def TruckInv (t : Truck) : Prop :=
  0 ≤ t.load ∧ t.load ≤ t.capacity

/-- Inductive step invariant: every container has nonnegative
capacity and fill within bounds, every truck load within bounds. -/
def EnvInv (s : EnvState) : Prop :=
  (∀ c ∈ s.containers, 0 ≤ c.capacity ∧ ContainerInv c) ∧
  (∀ t ∈ s.trucks, TruckInv t)

/-- A concrete state `GarbageEnvironment.setup` can produce with the
parameters of `agents2.py` (`capacity` 35, `container_limit` 30):
all five containers start at fill 10, the three trucks fresh. -/
def sampleEnv : EnvState :=
  ⟨[⟨(1, 1), 30, 10⟩, ⟨(6, 1), 30, 10⟩, ⟨(2, 5), 30, 10⟩, ⟨(5, 6), 30, 10⟩,
      ⟨(3, 3), 30, 10⟩],
    [⟨35, 0, (0, 0), fun _ => none, 3 / 10, 3 / 20, 9 / 10, 0⟩,
      ⟨35, 0, (7, 0), fun _ => none, 3 / 10, 3 / 20, 9 / 10, 1⟩,
      ⟨35, 0, (0, 7), fun _ => none, 3 / 10, 3 / 20, 9 / 10, 2⟩]⟩

/-! ### Theorems -/

/-- C1: whenever a container with positive fill sits at the truck's
position and the truck has spare capacity, `choose_action` returns
`collect`, for every exploration rate, every Q-table content and
every random draw (the priority rule overrides the learned policy). -/
theorem choose_action_priority_collect (t : Truck) (cs : List Container) (c : Container)
    (u : ℚ) (rc1 rc2 : Action)
    (hc : getContainerAt cs t.position = some c)
    (hfill : 0 < c.current_fill) (hload : t.load < t.capacity) :
    (t.choose_action cs u rc1 rc2).1 = Action.collect := by
  simp [Truck.choose_action, hc, hfill, hload]

/-- Witness for C1 at a concrete truck and container. -/
theorem choose_action_priority_collect_witness :
    ((Truck.mk 35 0 (0, 0) (fun _ => none) (3 / 10) (3 / 20) (9 / 10) 0).choose_action
        [Container.mk (0, 0) 30 10] (1 / 2) .up .down).1 = Action.collect :=
  choose_action_priority_collect _ _ (Container.mk (0, 0) 30 10) _ _ _
    (by decide) (by decide) (by decide)

/-- C2: `collect_trash` returns exactly `min(current_fill, amount)`,
never more than the fill held at call time, and leaves
`current_fill_before − returned`, which is never negative. -/
theorem collect_trash_spec (c : Container) (amount : ℤ)
    (hfill : 0 ≤ c.current_fill) (hamt : 0 ≤ amount) :
    (c.collect_trash amount).1 = min c.current_fill amount ∧
    (c.collect_trash amount).1 ≤ c.current_fill ∧
    (c.collect_trash amount).2.current_fill
      = c.current_fill - (c.collect_trash amount).1 ∧
    0 ≤ (c.collect_trash amount).2.current_fill := by
  refine ⟨rfl, min_le_left _ _, rfl, ?_⟩
  dsimp [Container.collect_trash]
  omega

/-- Witness for C2 at a concrete container and amount. -/
theorem collect_trash_spec_witness :
    ((Container.mk (1, 1) 30 7).collect_trash 5).1 = 5 := by
  have h := collect_trash_spec (Container.mk (1, 1) 30 7) 5 (by decide) (by decide)
  simpa using h.1

/-- C9: the snapshot classifier of the API server returns
`overflowing` exactly on `fill ≥ capacity`, `critical` exactly on
`0.9·capacity ≤ fill < capacity`, `medium` exactly on
`0.7·capacity ≤ fill < 0.9·capacity`, and `normal` otherwise. -/
theorem get_container_status_spec (c : Container) (hcap : 0 < c.capacity) :
    (get_container_status c = "overflowing" ↔ c.capacity ≤ c.current_fill) ∧
    (get_container_status c = "critical" ↔
      9 * c.capacity ≤ 10 * c.current_fill ∧ c.current_fill < c.capacity) ∧
    (get_container_status c = "medium" ↔
      7 * c.capacity ≤ 10 * c.current_fill ∧ 10 * c.current_fill < 9 * c.capacity) ∧
    (get_container_status c = "normal" ↔ 10 * c.current_fill < 7 * c.capacity) := by
  unfold get_container_status Container.is_overflowing Container.is_critical
  by_cases h1 : c.capacity ≤ c.current_fill <;>
    by_cases h2 : 9 * c.capacity ≤ 10 * c.current_fill <;>
      by_cases h3 : 7 * c.capacity ≤ 10 * c.current_fill <;>
        simp [h1, h2, h3] <;> omega

/-- Witness for C9 at a concrete container. -/
theorem get_container_status_spec_witness :
    get_container_status (Container.mk (1, 1) 30 28) = "critical" := by
  have h := get_container_status_spec (Container.mk (1, 1) 30 28) (by decide)
  exact (h.2.1).2 (by decide)

/-- C10: an overflowing container is always critical (for positive
capacity): `fill ≥ capacity` implies `fill ≥ 0.9 × capacity`. -/
theorem is_overflowing_implies_is_critical (c : Container) (hcap : 0 < c.capacity)
    (hov : c.is_overflowing = true) : c.is_critical = true := by
  unfold Container.is_overflowing at hov
  unfold Container.is_critical
  simp only [decide_eq_true_eq] at hov ⊢
  omega

/-- Witness for C10 at a concrete container. -/
theorem is_overflowing_implies_is_critical_witness :
    (Container.mk (1, 1) 30 31).is_critical = true :=
  is_overflowing_implies_is_critical (Container.mk (1, 1) 30 31) (by decide) (by decide)

/-- C5 counterexample: a container that is critical at the moment of
collection (fill 28 of capacity 30) but no longer critical after the
10 collected units are removed earns no bonus: the step reward is
`30 × 10 = 300`, not `30 × 10 + 100 × 10 = 1300`, because the source
tests `is_critical()` only after `collect_trash` has mutated the
fill. -/
theorem execute_collect_bonus_counterexample :
    (Container.mk (1, 1) 30 28).is_critical = true ∧
    ((Truck.mk 35 0 (1, 1) (fun _ => none) (3 / 10) (3 / 20) (9 / 10) 0).execute
        [Container.mk (1, 1) 30 28] .collect).1 = 30 * 10 ∧
    ¬ ((Truck.mk 35 0 (1, 1) (fun _ => none) (3 / 10) (3 / 20) (9 / 10) 0).execute
        [Container.mk (1, 1) 30 28] .collect).1 = 30 * 10 + 100 * 10 := by
  refine ⟨by decide, by decide, by decide⟩

/-- C6 counterexample: with a single critical container at (3,3) and
the truck at (0,0), `change_route` moves the truck to (1,0), strictly
decreasing the Manhattan distance to the nearest critical container
(6 to 5), yet the reward is 10, not 12: the +2 shaping test ran
before `change_route` reassigned `next_pos`. -/
theorem execute_change_route_shaping_counterexample :
    ((Truck.mk 35 0 (0, 0) (fun _ => none) (3 / 10) (3 / 20) (9 / 10) 0).execute
        [Container.mk (3, 3) 30 28] .change_route).2.1.position = (1, 0) ∧
    minDistTo (1, 0) (criticalPositions [Container.mk (3, 3) 30 28])
      < minDistTo (0, 0) (criticalPositions [Container.mk (3, 3) 30 28]) ∧
    ((Truck.mk 35 0 (0, 0) (fun _ => none) (3 / 10) (3 / 20) (9 / 10) 0).execute
        [Container.mk (3, 3) 30 28] .change_route).1 = 10 ∧
    ¬ ((Truck.mk 35 0 (0, 0) (fun _ => none) (3 / 10) (3 / 20) (9 / 10) 0).execute
        [Container.mk (3, 3) 30 28] .change_route).1 = 12 := by
  refine ⟨by decide, by decide, by decide, by decide⟩

/-- C7 counterexample: a truck that begins the step at dump corner
(0,0) with load equal to its capacity 35 and no container at that
position fully unloads during action selection, and the step reward
is −2 (the failed-collect penalty only): the −20 load-at-capacity
penalty is not applied, because the load was already zeroed when
`execute` checks it. -/
theorem step_unload_penalty_counterexample :
    (Truck.mk 35 35 (0, 0) (fun _ => none) (3 / 10) (3 / 20) (9 / 10) 0).load
      = (Truck.mk 35 35 (0, 0) (fun _ => none) (3 / 10) (3 / 20) (9 / 10) 0).capacity ∧
    getContainerAt [Container.mk (1, 1) 30 10] (0, 0) = none ∧
    ((Truck.mk 35 35 (0, 0) (fun _ => none) (3 / 10) (3 / 20) (9 / 10) 0).step
        [Container.mk (1, 1) 30 10] (1 / 2) .up .up).1.load = 0 ∧
    ((Truck.mk 35 35 (0, 0) (fun _ => none) (3 / 10) (3 / 20) (9 / 10) 0).step
        [Container.mk (1, 1) 30 10] (1 / 2) .up .up).2.2 = -2 ∧
    ¬ ((Truck.mk 35 35 (0, 0) (fun _ => none) (3 / 10) (3 / 20) (9 / 10) 0).step
        [Container.mk (1, 1) 30 10] (1 / 2) .up .up).2.2 = -2 + -20 := by
  refine ⟨by decide, by decide, by decide, by decide, by decide⟩

/-- C8 counterexample: a truck with a non-empty Q-table and
exploration rate 0.1: saving and loading back reproduces the table
but raises the exploration rate to `max(0.2, 0.1 × 0.98) = 0.2`,
strictly greater than before the load. -/
theorem save_load_epsilon_counterexample :
    ¬ (((load_q_table
          (save_q_table none
            (Truck.mk 35 0 (0, 0)
              (fun s => if s = ((0, 0), 0) then some (fun _ => 1) else none)
              (1 / 10) (3 / 20) (9 / 10) 0))
          (Truck.mk 35 0 (0, 0)
            (fun s => if s = ((0, 0), 0) then some (fun _ => 1) else none)
            (1 / 10) (3 / 20) (9 / 10) 0)).q_table
        = (fun s => if s = ((0, 0), 0) then some (fun _ => (1 : ℚ)) else none)) ∧
      ((load_q_table
          (save_q_table none
            (Truck.mk 35 0 (0, 0)
              (fun s => if s = ((0, 0), 0) then some (fun _ => 1) else none)
              (1 / 10) (3 / 20) (9 / 10) 0))
          (Truck.mk 35 0 (0, 0)
            (fun s => if s = ((0, 0), 0) then some (fun _ => 1) else none)
            (1 / 10) (3 / 20) (9 / 10) 0)).epsilon
        ≤ (1 : ℚ) / 10)) := by
  intro h
  have he := h.2
  norm_num [load_q_table, save_q_table] at he

/-- C8 amended: the save-then-load round trip reproduces the value
table verbatim and sets the exploration rate to
`max(0.2, 0.98 × previous rate)`; this is no greater than the
previous rate whenever that rate was at least 0.2, but strictly
raises any rate below 0.2. -/
theorem save_load_roundtrip (store : Option SavedData) (t : Truck) :
    (load_q_table (save_q_table store t) t).q_table = t.q_table ∧
    (load_q_table (save_q_table store t) t).epsilon
      = max (2 / 10) (t.epsilon * (98 / 100)) ∧
    (2 / 10 ≤ t.epsilon → (load_q_table (save_q_table store t) t).epsilon ≤ t.epsilon) := by
  refine ⟨rfl, rfl, fun h => ?_⟩
  show max (2 / 10 : ℚ) (t.epsilon * (98 / 100)) ≤ t.epsilon
  have h0 : (0 : ℚ) ≤ t.epsilon := le_trans (by norm_num) h
  have : t.epsilon * (98 / 100) ≤ t.epsilon := by nlinarith
  exact max_le h this

/-- Witness for the amended C8 at a concrete truck with a non-empty
table and exploration rate 0.3. -/
theorem save_load_roundtrip_witness :
    (load_q_table
        (save_q_table none
          (Truck.mk 35 0 (0, 0)
            (fun s => if s = ((0, 0), 0) then some (fun _ => 1) else none)
            (3 / 10) (3 / 20) (9 / 10) 0))
        (Truck.mk 35 0 (0, 0)
          (fun s => if s = ((0, 0), 0) then some (fun _ => 1) else none)
          (3 / 10) (3 / 20) (9 / 10) 0)).epsilon
      ≤ (3 : ℚ) / 10 :=
  (save_load_roundtrip none _).2.2 (by norm_num)

/-- Lazy initialisation does not change the row read back for any
state (an unseen state already reads as the all-zero row). -/
theorem avAt_initStateQ (q : QTable) (s s0 : TState) :
    avAt (initStateQ q s) s0 = avAt q s0 := by
  unfold initStateQ avAt
  rcases hq : q s with _ | av
  · simp only [hq]
    by_cases h : s0 = s
    · subst h
      simp [Function.update, hq]
    · simp [Function.update, h]
  · simp only [hq]

/-- Lazy initialisation makes exactly the initialised state present,
on top of the states already present. -/
theorem isSome_initStateQ (q : QTable) (s s0 : TState) :
    ((initStateQ q s) s0).isSome = ((q s0).isSome || decide (s0 = s)) := by
  unfold initStateQ
  rcases hq : q s with _ | av
  · simp only [hq]
    by_cases h : s0 = s
    · subst h
      simp [Function.update, hq]
    · simp [Function.update, h]
  · simp only [hq]
    by_cases h : s0 = s
    · subst h
      simp [hq]
    · simp [h]

/-- Reading back the row just written to a state. -/
theorem avAt_update_self (q : QTable) (s : TState) (av : AVals) :
    avAt (Function.update q s (some av)) s = av := by
  unfold avAt
  rw [Function.update_same]

/-- Unfolding equation for the table produced by `update_q`. -/
theorem update_q_q_table (t : Truck) (s : TState) (a : Action) (r : ℤ) (s' : TState) :
    (t.update_q s a r s').q_table
      = Function.update (initStateQ (initStateQ t.q_table s) s') s
          (some (Function.update (avAt (initStateQ (initStateQ t.q_table s) s') s) a
            (avAt (initStateQ (initStateQ t.q_table s) s') s a
              + t.alpha * ((r : ℚ)
                  + t.gamma * maxAVal (avAt (initStateQ (initStateQ t.q_table s) s') s')
                  - avAt (initStateQ (initStateQ t.q_table s) s') s a)))) := rfl

/-- C4: `update_q` stores
`old + α × (reward + γ × max_a' Q[next][a'] − old)` at
`(state, action)`, reading an unseen state or next state as the
all-zero row over the six actions; it never fails on an unseen
state: afterwards both `state` and `next_state` are present, and no
other state appears or disappears.  For `α = 0` the right-hand side
collapses to the old value, so the stored value is unchanged. -/
theorem update_q_spec (t : Truck) (s : TState) (a : Action) (r : ℤ) (s' : TState) :
    avAt (t.update_q s a r s').q_table s a
      = avAt t.q_table s a
        + t.alpha * ((r : ℚ) + t.gamma * maxAVal (avAt t.q_table s') - avAt t.q_table s a)
    ∧ ∀ s0 : TState, ((t.update_q s a r s').q_table s0).isSome
        = (((t.q_table s0).isSome || decide (s0 = s)) || decide (s0 = s')) := by
  constructor
  · rw [update_q_q_table]
    rw [avAt_update_self]
    rw [Function.update_same]
    simp only [avAt_initStateQ]
  · intro s0
    rw [update_q_q_table]
    by_cases h : s0 = s
    · subst h
      rw [Function.update_same]
      simp
    · rw [Function.update_noteq h]
      rw [isSome_initStateQ, isSome_initStateQ]

/-- C5 amended: when `collect` executes co-located with a container
of positive fill and with spare capacity, the reward is
`30 × collected`, plus the `100 × collected` bonus exactly when the
container is still critical after the collected amount has been
removed (the source tests `is_critical()` after `collect_trash`),
plus the global full-load and overflow penalties; the distance
shaping adds nothing since the position does not change. -/
theorem execute_collect_reward (t : Truck) (cs : List Container) (c : Container)
    (hc : getContainerAt cs t.position = some c)
    (hload : t.load < t.capacity) (hfill : 0 < c.current_fill) :
    (t.execute cs .collect).1
      = 30 * min c.current_fill (min (t.capacity - t.load) 10)
        + (if 9 * c.capacity
              ≤ 10 * (c.current_fill - min c.current_fill (min (t.capacity - t.load) 10))
            then 100 * min c.current_fill (min (t.capacity - t.load) 10) else 0)
        + (if t.capacity ≤ t.load + min c.current_fill (min (t.capacity - t.load) 10)
            then -20 else 0)
        - 30 * ((overflowingPositions (t.execute cs .collect).2.2).length : ℤ) := by
  have hmn : min c.current_fill (min c.current_fill (min (t.capacity - t.load) 10))
      = min c.current_fill (min (t.capacity - t.load) 10) := by
    omega
  simp only [Truck.execute, collectStep, hc, hload, hfill, if_true, if_pos,
    Container.collect_trash, Container.is_critical, shapingReward, movementNext,
    hmn]
  simp [hload, hfill]
  split_ifs <;> ring

/-- Witness for the amended C5: a container at fill 60 of capacity
30 stays critical after 10 units are removed, so the reward is
`300 + 1000` minus the overflow penalty for that same container. -/
theorem execute_collect_reward_witness :
    ((Truck.mk 35 0 (1, 1) (fun _ => none) (3 / 10) (3 / 20) (9 / 10) 0).execute
        [Container.mk (1, 1) 30 60] .collect).1 = 30 * 10 + 100 * 10 - 30 * 1 := by
  rw [execute_collect_reward _ _ (Container.mk (1, 1) 30 60) (by decide) (by decide)
    (by decide)]
  decide

/-- C6 corrected: when a critical container exists, the +2 shaping
term compares the pre-move position against the `next_pos` computed
by the four movement branches only.  For the movement actions this is
the real move, and the +2 is added exactly when the minimum Manhattan
distance to a critical container strictly decreases; but for
`change_route` the comparison sees the still-unchanged position
(the reroute reassigns `next_pos` only afterwards), so `change_route`
never earns the +2 even though its move can strictly decrease the
distance. -/
theorem execute_shaping_spec (t : Truck) (cs : List Container)
    (hcrit : criticalPositions cs ≠ []) :
    ((t.execute cs .change_route).1
        = 10 + (if t.capacity ≤ t.load then -20 else 0)
          - 30 * ((overflowingPositions cs).length : ℤ)) ∧
    (∀ a, (a = Action.up ∨ a = Action.down ∨ a = Action.left ∨ a = Action.right) →
      (t.execute cs a).1
        = (if minDistTo (movementNext a t.position) (criticalPositions cs)
              < minDistTo t.position (criticalPositions cs) then 2 else 0)
          + (if t.capacity ≤ t.load then -20 else 0)
          - 30 * ((overflowingPositions cs).length : ℤ)) := by
  have hne : (criticalPositions cs).isEmpty = false := by
    simpa [List.isEmpty_iff] using hcrit
  constructor
  · simp only [Truck.execute, movementNext, shapingReward, rerouteStep, hne,
      Bool.false_eq_true, not_false_iff, true_and, if_true, if_false]
    simp
    split_ifs <;> ring
  · rintro a (rfl | rfl | rfl | rfl) <;>
      · simp only [Truck.execute, shapingReward, hne, Bool.false_eq_true,
          not_false_iff, true_and]
        simp
        split_ifs <;> ring

/-- Witness for the corrected C6 at a concrete state: one critical
container at (3,3), truck at (0,0); `change_route` yields reward 10
and the move `right` yields 2. -/
theorem execute_shaping_spec_witness :
    ((Truck.mk 35 0 (0, 0) (fun _ => none) (3 / 10) (3 / 20) (9 / 10) 0).execute
        [Container.mk (3, 3) 30 28] .change_route).1 = 10 ∧
    ((Truck.mk 35 0 (0, 0) (fun _ => none) (3 / 10) (3 / 20) (9 / 10) 0).execute
        [Container.mk (3, 3) 30 28] .right).1 = 2 := by
  have h := execute_shaping_spec
    (Truck.mk 35 0 (0, 0) (fun _ => none) (3 / 10) (3 / 20) (9 / 10) 0)
    [Container.mk (3, 3) 30 28] (by decide)
  constructor
  · rw [h.1]
    decide
  · rw [h.2 .right (by tauto)]
    decide

/-- A dump corner is its own closest dump corner. -/
theorem closestTo_dump_self (p : ℤ × ℤ) (hp : p ∈ dump_points) :
    closestTo p dump_points = p := by
  have h : p = ((0 : ℤ), (0 : ℤ)) ∨ p = (7, 0) ∨ p = (0, 7) ∨ p = (7, 7) := by
    simpa [dump_points] using hp
  rcases h with h | h | h | h <;> subst h <;> decide

/-- `update_q` only rewrites the Q-table. -/
theorem update_q_load (t : Truck) (s : TState) (a : Action) (r : ℤ) (s' : TState) :
    (t.update_q s a r s').load = t.load := rfl

/-- C7 corrected: a truck that begins a step at a dump corner with
load equal to its (positive) capacity and no container at that
position fully unloads during action selection — `move_to_dump`
zeroes the load before `execute` runs — so the −20 load-at-capacity
penalty is NOT applied to that step: the reward is the −2
failed-collect penalty plus the global overflow penalty only. -/
theorem step_unload_no_full_penalty (t : Truck) (cs : List Container) (u : ℚ)
    (rc1 rc2 : Action)
    (hd : t.position ∈ dump_points) (hl : t.load = t.capacity) (hcap : 0 < t.capacity)
    (hc : getContainerAt cs t.position = none) :
    (t.step cs u rc1 rc2).1.load = 0 ∧
    (t.step cs u rc1 rc2).2.2 = -2 - 30 * ((overflowingPositions cs).length : ℤ) := by
  have h45 : 4 * t.capacity ≤ 5 * t.load := by omega
  have hmd : t.move_to_dump = (Action.collect, { t with load := 0 }) := by
    unfold Truck.move_to_dump
    rw [closestTo_dump_self _ hd]
    simp
  have hca : t.choose_action cs u rc1 rc2 = (Action.collect, { t with load := 0 }) := by
    unfold Truck.choose_action
    simp only [hc]
    rw [if_neg (by simp)]
    rw [if_pos h45]
    exact hmd
  have hex : ({ t with load := 0 } : Truck).execute cs Action.collect
      = (-2 - 30 * ((overflowingPositions cs).length : ℤ), { t with load := 0 }, cs) := by
    unfold Truck.execute
    simp only [collectStep, hc]
    simp [shapingReward, movementNext, hcap.not_le]
    ring
  unfold Truck.step
  simp only [hca, hex, update_q_load]
  constructor <;> trivial

/-- Witness for the corrected C7 at a concrete truck and container
list (also exercised as the C7 counterexample). -/
theorem step_unload_no_full_penalty_witness :
    ((Truck.mk 35 35 (7, 0) (fun _ => none) (3 / 10) (3 / 20) (9 / 10) 0).step
        [Container.mk (1, 1) 30 10] (1 / 2) .up .up).2.2 = -2 := by
  have h := step_unload_no_full_penalty
    (Truck.mk 35 35 (7, 0) (fun _ => none) (3 / 10) (3 / 20) (9 / 10) 0)
    [Container.mk (1, 1) 30 10] (1 / 2) .up .up
    (by decide) (by decide) (by decide) (by decide)
  rw [h.2]
  decide

/-! ### C3: the reachability invariant -/

/-- The generation draw is nonnegative in both sampling ranges. -/
theorem GenOk.nonneg {density : ℚ} {g : ℤ} (h : GenOk density g) : 0 ≤ g := by
  unfold GenOk at h
  split_ifs at h <;> omega

/-- Container generation never changes the capacity. -/
theorem container_step_capacity (density u : ℚ) (g : ℤ) (c : Container) :
    (Container.step density u g c).capacity = c.capacity := by
  unfold Container.step
  split_ifs <;> rfl

/-- Container generation preserves the fill bounds: the clamp keeps
the fill at most `2 × capacity`, and a nonnegative draw keeps it
nonnegative. -/
theorem container_step_inv (density u : ℚ) (g : ℤ) (c : Container)
    (hg : 0 ≤ g) (hcap : 0 ≤ c.capacity) (h : ContainerInv c) :
    ContainerInv (Container.step density u g c) := by
  unfold Container.step
  unfold ContainerInv at *
  split_ifs
  · dsimp only
    omega
  · exact h

/-- Collection with a nonnegative request preserves the fill bounds. -/
theorem collect_trash_inv (c : Container) (amount : ℤ) (hamt : 0 ≤ amount)
    (h : ContainerInv c) : ContainerInv (c.collect_trash amount).2 := by
  unfold Container.collect_trash
  unfold ContainerInv at *
  dsimp only
  omega

/-- A container found by position is a member of the list. -/
theorem getContainerAt_mem (cs : List Container) (p : ℤ × ℤ) (c : Container)
    (h : getContainerAt cs p = some c) : c ∈ cs := by
  induction cs with
  | nil => simp [getContainerAt] at h
  | cons c0 rest ih =>
    unfold getContainerAt at h
    split_ifs at h
    · simp at h
      simp [h]
    · exact List.mem_cons_of_mem _ (ih h)

/-- Every element of `updateFirstAt cs p f` is an element of `cs` or
the image under `f` of one. -/
theorem mem_updateFirstAt (cs : List Container) (p : ℤ × ℤ) (f : Container → Container)
    (x : Container) (hx : x ∈ updateFirstAt cs p f) :
    x ∈ cs ∨ ∃ c ∈ cs, x = f c := by
  induction cs with
  | nil => simp [updateFirstAt] at hx
  | cons c rest ih =>
    unfold updateFirstAt at hx
    split_ifs at hx
    · rcases List.mem_cons.mp hx with h1 | h1
      · exact Or.inr ⟨c, List.mem_cons_self c rest, h1⟩
      · exact Or.inl (List.mem_cons_of_mem _ h1)
    · rcases List.mem_cons.mp hx with h1 | h1
      · exact Or.inl (by simp [h1])
      · rcases ih h1 with h2 | ⟨c0, hc0, he⟩
        · exact Or.inl (List.mem_cons_of_mem _ h2)
        · exact Or.inr ⟨c0, List.mem_cons_of_mem _ hc0, he⟩

/-- The collect branch keeps the truck load within `[0, capacity]`
and every container fill within its bounds. -/
theorem collectStep_inv (cs : List Container) (t : Truck)
    (hall : ∀ c ∈ cs, 0 ≤ c.capacity ∧ ContainerInv c) (ht : TruckInv t) :
    (0 ≤ (collectStep cs t).2.1 ∧ (collectStep cs t).2.1 ≤ t.capacity) ∧
    ∀ c' ∈ (collectStep cs t).2.2, 0 ≤ c'.capacity ∧ ContainerInv c' := by
  unfold TruckInv at ht
  unfold collectStep
  rcases hg : getContainerAt cs t.position with _ | c
  · exact ⟨ht, hall⟩
  · have hcmem := getContainerAt_mem cs t.position c hg
    have hcinv := hall c hcmem
    unfold ContainerInv at hcinv
    dsimp only
    by_cases h1 : t.load < t.capacity
    · by_cases h2 : 0 < c.current_fill
      · rw [if_pos h1, if_pos h2]
        dsimp only
        have hamt : 0 ≤ min c.current_fill (min (t.capacity - t.load) 10) := by omega
        constructor
        · unfold Container.collect_trash
          dsimp only
          omega
        · intro c' hc'
          rcases mem_updateFirstAt cs t.position _ c' hc' with h | ⟨c0, hc0, he⟩
          · exact hall c' h
          · have hc0inv := hall c0 hc0
            rw [he]
            exact ⟨hc0inv.1, collect_trash_inv c0 _ hamt hc0inv.2⟩
      · rw [if_pos h1, if_neg h2]
        exact ⟨ht, hall⟩
    · rw [if_neg h1]
      exact ⟨ht, hall⟩

/-- `choose_action` either leaves the truck unchanged or zeroes its
load (the unload of `move_to_dump`). -/
theorem choose_action_truck (t : Truck) (cs : List Container) (u : ℚ) (rc1 rc2 : Action) :
    (t.choose_action cs u rc1 rc2).2 = t ∨
    (t.choose_action cs u rc1 rc2).2 = { t with load := 0 } := by
  unfold Truck.choose_action Truck.move_to_dump
  rcases hg : getContainerAt cs t.position with _ | c <;>
    rcases ht : t.q_table t.state with _ | av <;>
      (dsimp only; split_ifs <;> simp)

/-- `execute` keeps the truck load within `[0, capacity]` and every
container fill within its bounds. -/
theorem execute_inv (t : Truck) (cs : List Container) (a : Action)
    (ht : TruckInv t) (hall : ∀ c ∈ cs, 0 ≤ c.capacity ∧ ContainerInv c) :
    TruckInv (t.execute cs a).2.1 ∧
    ∀ c' ∈ (t.execute cs a).2.2, 0 ≤ c'.capacity ∧ ContainerInv c' := by
  have hcs := collectStep_inv cs t hall ht
  unfold Truck.execute
  by_cases ha : a = Action.collect
  · simp only [ha, if_true, if_pos]
    exact ⟨⟨hcs.1.1, hcs.1.2⟩, hcs.2⟩
  · simp only [if_neg ha]
    exact ⟨ht, hall⟩

/-- `update_q` never changes the capacity. -/
theorem update_q_capacity (t : Truck) (s : TState) (a : Action) (r : ℤ) (s' : TState) :
    (t.update_q s a r s').capacity = t.capacity := rfl

/-- One full truck step keeps the truck load within `[0, capacity]`
and every container fill within its bounds. -/
theorem truck_step_inv (t : Truck) (cs : List Container) (u : ℚ) (rc1 rc2 : Action)
    (ht : TruckInv t) (hall : ∀ c ∈ cs, 0 ≤ c.capacity ∧ ContainerInv c) :
    TruckInv (t.step cs u rc1 rc2).1 ∧
    ∀ c' ∈ (t.step cs u rc1 rc2).2.1, 0 ≤ c'.capacity ∧ ContainerInv c' := by
  have ht1 : TruckInv (t.choose_action cs u rc1 rc2).2 := by
    rcases choose_action_truck t cs u rc1 rc2 with h | h <;> rw [h]
    · exact ht
    · unfold TruckInv at ht ⊢
      dsimp only
      omega
  have hex := execute_inv (t.choose_action cs u rc1 rc2).2 cs
    (t.choose_action cs u rc1 rc2).1 ht1 hall
  unfold Truck.step
  dsimp only
  constructor
  · unfold TruckInv at hex ⊢
    rw [update_q_load, update_q_capacity]
    exact hex.1
  · exact hex.2

/-- Running all trucks in order preserves both parts of the
invariant. -/
theorem stepTrucks_inv (trucks : List (Truck × TruckOracle)) (cs : List Container)
    (hall : ∀ c ∈ cs, 0 ≤ c.capacity ∧ ContainerInv c)
    (hts : ∀ p ∈ trucks, TruckInv p.1) :
    (∀ t' ∈ (stepTrucks cs trucks).1, TruckInv t') ∧
    ∀ c' ∈ (stepTrucks cs trucks).2, 0 ≤ c'.capacity ∧ ContainerInv c' := by
  induction trucks generalizing cs with
  | nil =>
    refine ⟨by simp [stepTrucks], ?_⟩
    simpa [stepTrucks] using hall
  | cons p rest ih =>
    obtain ⟨t, o⟩ := p
    have h1 := truck_step_inv t cs o.1 o.2.1 o.2.2
      (hts (t, o) (List.mem_cons_self _ _)) hall
    have h2 := ih (t.step cs o.1 o.2.1 o.2.2).2.1 h1.2
      (fun q hq => hts q (List.mem_cons_of_mem _ hq))
    constructor
    · intro t' ht'
      unfold stepTrucks at ht'
      rcases List.mem_cons.mp ht' with rfl | h
      · exact h1.1
      · exact h2.1 t' h
    · intro c' hc'
      unfold stepTrucks at hc'
      exact h2.2 c' hc'

/-- One full environment step preserves the invariant. -/
theorem envStep_inv (density : ℚ) (s s' : EnvState)
    (h : EnvStep density s s') (hinv : EnvInv s) : EnvInv s' := by
  obtain ⟨co, tos, hlen1, hlen2, hgen, rfl⟩ := h
  unfold envStepFun
  have hcs1 : ∀ c ∈ (s.containers.zip co).map
      (fun p => Container.step density p.2.1 p.2.2 p.1),
      0 ≤ c.capacity ∧ ContainerInv c := by
    intro c hc
    rcases List.mem_map.mp hc with ⟨⟨c0, ug⟩, hmem, rfl⟩
    have hc0 := hinv.1 c0 (List.of_mem_zip hmem).1
    have hg := (hgen _ (List.of_mem_zip hmem).2).nonneg
    constructor
    · rw [container_step_capacity]
      exact hc0.1
    · exact container_step_inv density ug.1 ug.2 c0 hg hc0.1 hc0.2
  have hts : ∀ p ∈ s.trucks.zip tos, TruckInv p.1 := by
    intro p hp
    obtain ⟨t, o⟩ := p
    exact hinv.2 t (List.of_mem_zip hp).1
  have hmain := stepTrucks_inv (s.trucks.zip tos) _ hcs1 hts
  exact ⟨hmain.2, hmain.1⟩

/-- C3: in every state reachable from a setup state by repeated full
environment steps, every container satisfies
`0 ≤ current_fill ≤ 2 × capacity` and every vehicle satisfies
`0 ≤ load ≤ capacity`.  The setup draws initial fills in `[5, 20]`,
so the container capacity parameter must be at least 10 (both
configurations in the repository use 30 and 75) and the truck
capacity nonnegative. -/
theorem reachable_fill_load_invariant (cap climit : ℤ) (density : ℚ) (s0 s : EnvState)
    (hsetup : SetupOk cap climit s0) (hclimit : 10 ≤ climit) (hcap : 0 ≤ cap)
    (hreach : Reachable density s0 s) :
    (∀ c ∈ s.containers, 0 ≤ c.current_fill ∧ c.current_fill ≤ 2 * c.capacity) ∧
    (∀ t ∈ s.trucks, 0 ≤ t.load ∧ t.load ≤ t.capacity) := by
  have hinv0 : EnvInv s0 := by
    obtain ⟨hpos, hcont, htpos, htr⟩ := hsetup
    constructor
    · intro c hc
      have h := hcont c hc
      unfold ContainerInv
      omega
    · intro t htm
      have h := htr t htm
      unfold TruckInv
      omega
  have hinv : EnvInv s := by
    induction hreach with
    | refl => exact hinv0
    | tail h1 h2 ih => exact envStep_inv density _ _ h2 ih
  exact ⟨fun c hc => (hinv.1 c hc).2, hinv.2⟩

/-- Witness for C3 at a concrete setup state (the reflexive
reachability step), with the `agents2.py` parameters. -/
theorem reachable_fill_load_invariant_witness :
    (∀ c ∈ sampleEnv.containers, 0 ≤ c.current_fill ∧ c.current_fill ≤ 2 * c.capacity) ∧
    (∀ t ∈ sampleEnv.trucks, 0 ≤ t.load ∧ t.load ≤ t.capacity) :=
  reachable_fill_load_invariant 35 30 (2 / 10) sampleEnv sampleEnv
    (by refine ⟨by decide, by decide, by decide, by decide⟩) (by decide) (by decide)
    Relation.ReflTransGen.refl

end RutaVerde
